import Mathlib

/-!
Verification of `x-pack/agent/pkg/agent/application/fleet_gateway.go`.

The gateway is embedded shallowly as trace-producing functions: each
operation returns the ordered list of interactions (`Step`s) it performs
with its collaborators (Reporter, Checkin Client, Dispatcher, logger),
together with its Go return values.  External collaborators whose code is
not part of the repository slice under scrutiny (the Reporter's queue
semantics and the jittered scheduler) are modelled from their specified
contracts; this is marked on each such definition.

Events, actions and errors are opaque to the gateway, so they are modelled
by simple carrier types (`Nat` for events and actions, `String` for error
values).  Go's `(value, error)` multiple return is modelled by `Except`
when the contract guarantees exactly one of the two is set, and by a pair
of `Option`s for constructors, which in the source return both components
explicitly.
-/

namespace FleetGatewayModel

/-- Opaque serializable event (Go `fleetapi.SerializableEvent`). -/
abbrev Event := Nat

/-- Opaque action (Go `action` interface). -/
abbrev Action := Nat

/-- Opaque error value (Go `error`). -/
abbrev Err := String

/-- Go `fleetapi.CheckinRequest`: carries the event snapshot. -/
structure CheckinRequest where
  events : List Event
deriving DecidableEq, Repr

/-- Go `fleetapi.CheckinResponse`: carries the ordered action list. -/
structure CheckinResponse where
  actions : List Action
deriving DecidableEq, Repr

/-- One observable interaction of the gateway with its collaborators.
`queueWrite` is a direct mutation of the Reporter's pending queue; it is in
the vocabulary so that the frame property "the gateway never mutates the
queue directly" is expressible, and the embedding shows it is never emitted. -/
inductive Step where
  | eventsCall (snapshot : List Event)
  | checkinExec (req : CheckinRequest) (result : Option CheckinResponse) (e : Option Err)
  | ackInvoke (snapshot : List Event)
  | dispatchCall (actions : List Action)
  | logError (e : Err)
  | queueWrite (newQueue : List Event)
deriving Repr

/-- Discriminator: is this step an acknowledgment invocation? -/
def Step.isAck : Step → Bool
  | .ackInvoke _ => true
  | _ => false

/-- Discriminator: is this step a Dispatch invocation? -/
def Step.isDispatch : Step → Bool
  | .dispatchCall _ => true
  | _ => false

/-- Discriminator: is this step a direct write of the pending queue? -/
def Step.isQueueWrite : Step → Bool
  | .queueWrite _ => true
  | _ => false

/-- Discriminator: is this step the check-in round-trip? -/
def Step.isCheckin : Step → Bool
  | .checkinExec _ _ _ => true
  | _ => false

/-- Modelled from the spec: the Reporter's acknowledgment capability
"commits the removal of exactly those snapshotted events from the pending
queue" (the Reporter implementation is outside this file's source slice). -/
def ackRemove (snapshot pending : List Event) : List Event :=
  pending.filter (fun e => !snapshot.contains e)

/-- Effect of one trace step on the Reporter's pending queue.  Only the
acknowledgment capability (and a hypothetical direct write) touch it. -/
def applyStep (pending : List Event) : Step → List Event
  | .ackInvoke snap => ackRemove snap pending
  | .queueWrite q => q
  | _ => pending

/-- Effect of a whole trace on the Reporter's pending queue. -/
def applyTrace (pending : List Event) (tr : List Step) : List Event :=
  tr.foldl applyStep pending

/-- Contract of the Checkin Client (`cmd.Execute`): one round-trip returns
either a response or an error, never both and never neither. -/
abbrev Client := CheckinRequest → Except Err CheckinResponse

/-- Shallow embedding of `fleetGateway.execute`:
reads the event snapshot and its acknowledgment capability from the
Reporter, performs the check-in round-trip, and on success (and only then)
invokes the acknowledgment.  Returns the trace of interactions together
with the Go return pair, `.ok resp` standing for `(resp, nil)` and
`.error e` for `(nil, err)`. -/
def execute (client : Client) (pending : List Event) :
    List Step × Except Err CheckinResponse :=
  -- get events
  let ee := pending
  -- checkin
  let req : CheckinRequest := { events := ee }
  match client req with
  | Except.error err =>
      ([Step.eventsCall ee, Step.checkinExec req none (some err)],
       Except.error err)
  | Except.ok resp =>
      -- ack events so they are dropped from queue
      ([Step.eventsCall ee, Step.checkinExec req (some resp) none,
        Step.ackInvoke ee],
       Except.ok resp)

/-- Capabilities one iteration of the worker loop interacts with: the
Checkin Client and the Dispatcher's result for a given batch. -/
structure CycleEnv where
  client : Client
  dispatchRes : List Action → Except Err Unit

/-- Shallow embedding of the body of one `tick` iteration of
`fleetGateway.worker`: run `execute`; on error log it and continue; on
success copy the response's actions in order into the dispatcher's input
and call `Dispatch`, logging (only) a dispatch error. -/
def workerCycle (c : CycleEnv) (pending : List Event) : List Step :=
  match execute c.client pending with
  | (tr, Except.error e) => tr ++ [Step.logError e]
  | (tr, Except.ok resp) =>
      let actions := resp.actions.map (fun a => a)
      tr ++ [Step.dispatchCall actions] ++
        (match c.dispatchRes actions with
         | Except.error e => [Step.logError e]
         | Except.ok _ => [])

/-- Resolution of one `select` in the worker loop: either the scheduler's
tick fired or the `done` channel was observed closed. -/
inductive Signal where
  | tick
  | done
deriving DecidableEq, Repr

/-- Per-cycle collaborator behaviour for a whole run of the worker loop. -/
structure World where
  cycles : Nat → CycleEnv

/-- Shallow embedding of `fleetGateway.worker`: a loop that, at each
iteration, selects between the next tick and the done signal; a tick runs
one cycle (threading the Reporter's queue through the acknowledgment
semantics), the done signal returns from the loop.  The signal list is the
sequence of select resolutions; an empty list means the loop is still
blocked waiting (the observation horizon ends). -/
def worker (w : World) : List Signal → Nat → List Event → List Step
  | [], _, _ => []
  | Signal.done :: _, _, _ => []
  | Signal.tick :: rest, k, pending =>
      let tr := workerCycle (w.cycles k) pending
      tr ++ worker w rest (k + 1) (applyTrace pending tr)

/-- Per-cycle traces of the worker loop, before concatenation. -/
def cycleList (w : World) : List Signal → Nat → List Event → List (List Step)
  | [], _, _ => []
  | Signal.done :: _, _, _ => []
  | Signal.tick :: rest, k, pending =>
      let tr := workerCycle (w.cycles k) pending
      tr :: cycleList w rest (k + 1) (applyTrace pending tr)

/-- Go `chan struct{}` used as the done signal: only its closedness is
observable to `close` and to the worker's select. -/
structure DoneChan where
  closed : Bool
deriving DecidableEq, Repr

/-- Modelled from the spec: `scheduler.NewPeriodicJitter`'s state (the
scheduler package is outside this file's source slice).  It carries the
configured base interval and jitter magnitude (durations, in integral
nanoseconds as Go `time.Duration`) and whether `Stop` was called. -/
structure PeriodicJitterSched where
  interval : Int
  jitter : Int
  stopped : Bool
deriving DecidableEq, Repr

/-- Modelled from the spec: the scheduler's `k`-th inter-tick delay is the
base interval perturbed by a random offset bounded by the jitter magnitude;
the offsets stream is the scheduler's source of randomness. -/
def schedDelay (s : PeriodicJitterSched) (offsets : Nat → Int) (k : Nat) : Int :=
  s.interval + offsets k

/-- Modelled from the spec: after `Stop()` no further ticks are delivered;
a live scheduler's wait eventually yields a tick. -/
def waitTick (s : PeriodicJitterSched) : Option Unit :=
  if s.stopped then none else some ()

/-- Go `scheduler.Scheduler.Stop`. -/
def schedStop (s : PeriodicJitterSched) : PeriodicJitterSched :=
  { s with stopped := true }

/-- Go `fleetGatewaySettings`. -/
structure FleetGatewaySettings where
  duration : Int
  jitter : Int
deriving DecidableEq, Repr

/-- The `fleetGateway` struct.  The capability references (logger, client,
dispatcher, agent info, reporter) are opaque to the lifecycle operations
and appear instead as parameters of `execute` / `workerCycle`; the fields
kept here are the two whose state the lifecycle operations read or write. -/
structure Gateway where
  sched : PeriodicJitterSched
  done : DoneChan
deriving DecidableEq, Repr

/-- Go `scheduler.NewPeriodicJitter`. -/
def newPeriodicJitter (d j : Int) : PeriodicJitterSched :=
  { interval := d, jitter := j, stopped := false }

/-- Shallow embedding of `newFleetGatewayWithScheduler`: returns the Go
pair `(*fleetGateway, error)`, unconditionally a fresh gateway (with an
open done channel) and a nil error. -/
def newFleetGatewayWithScheduler (settings : FleetGatewaySettings)
    (sched : PeriodicJitterSched) : Option Gateway × Option Err :=
  (some { sched := sched, done := { closed := false } }, none)

/-- Shallow embedding of `newFleetGateway`: builds a periodic-jitter
scheduler from the settings and delegates. -/
def newFleetGateway (settings : FleetGatewaySettings) :
    Option Gateway × Option Err :=
  newFleetGatewayWithScheduler settings
    (newPeriodicJitter settings.duration settings.jitter)

/-- Go `close` on a `chan struct{}`: faults (run-time panic) when the
channel is already closed, otherwise marks it closed. -/
def closeChan (c : DoneChan) : Except Err DoneChan :=
  if c.closed then Except.error "close of closed channel"
  else Except.ok { closed := true }

/-- Shallow embedding of `fleetGateway.Stop`: closes the done channel and
stops the scheduler; an `Except.error` models the run-time fault of a
double close. -/
def Gateway.stopGateway (g : Gateway) : Except Err Gateway :=
  match closeChan g.done with
  | Except.error e => Except.error e
  | Except.ok d => Except.ok { done := d, sched := schedStop g.sched }

/-- Result of `fleetGateway.Start`: it spawns the worker as a separate
unit of execution (`go f.worker()`) and performs no gateway interaction
steps itself before returning. -/
structure StartResult where
  spawnedWorker : Bool
  syncTrace : List Step

/-- Shallow embedding of `fleetGateway.Start`. -/
def Gateway.startGateway (_g : Gateway) : StartResult :=
  { spawnedWorker := true, syncTrace := [] }

/-- C1: when the check-in round-trip (`cmd.Execute`) succeeds, `execute`
invokes the Reporter's acknowledgment capability exactly once, strictly
after the round-trip step in the interaction trace, and returns the parsed
response with no error; moreover, for any call whatsoever, the trace holds
one acknowledgment when the round-trip succeeded and none otherwise, so
the snapshot is acknowledged at most once and never without (or before) a
successful round-trip. -/
theorem execute_ack_once_after_success :
    (∀ (client : Client) (pending : List Event) (resp : CheckinResponse),
       client { events := pending } = Except.ok resp →
       execute client pending =
         ([Step.eventsCall pending,
           Step.checkinExec { events := pending } (some resp) none,
           Step.ackInvoke pending],
          Except.ok resp)) ∧
    (∀ (client : Client) (pending : List Event),
       (execute client pending).1.countP Step.isAck =
         match client { events := pending } with
         | Except.ok _ => 1
         | Except.error _ => 0) := by
  constructor
  · intro client pending resp h
    simp [execute, h]
  · intro client pending
    cases h : client { events := pending } <;>
      simp [execute, h, List.countP_cons, Step.isAck]

/-- Witness for C1 at a concrete client and queue. -/
theorem execute_ack_once_after_success_witness :
    execute
        (fun r => if r.events = [1, 2] then Except.ok { actions := [5] }
                  else Except.error "boom") [1, 2] =
      ([Step.eventsCall [1, 2],
        Step.checkinExec { events := [1, 2] } (some { actions := [5] }) none,
        Step.ackInvoke [1, 2]],
       Except.ok { actions := [5] }) :=
  execute_ack_once_after_success.1 _ [1, 2] { actions := [5] } rfl

/-- C2: when the check-in round-trip fails, `execute` returns the error
(with no response), the acknowledgment capability is never invoked, the
Reporter's pending queue is left untouched by the trace, and the worker
cycle built on that call never invokes `Dispatch`. -/
theorem execute_failure_no_ack :
    ∀ (c : CycleEnv) (pending : List Event) (e : Err),
      c.client { events := pending } = Except.error e →
      execute c.client pending =
        ([Step.eventsCall pending,
          Step.checkinExec { events := pending } none (some e)],
         Except.error e) ∧
      (execute c.client pending).1.countP Step.isAck = 0 ∧
      applyTrace pending (execute c.client pending).1 = pending ∧
      (workerCycle c pending).countP Step.isDispatch = 0 := by
  intro c pending e h
  refine ⟨by simp [execute, h], ?_, ?_, ?_⟩
  · simp [execute, h, List.countP_cons, Step.isAck]
  · simp [execute, h, applyTrace, applyStep]
  · simp [workerCycle, execute, h, List.countP_cons, Step.isDispatch]

/-- Witness for C2 at a concrete failing client. -/
theorem execute_failure_no_ack_witness :
    execute
        ({ client := fun _ => Except.error "down",
           dispatchRes := fun _ => Except.ok () } : CycleEnv).client [1, 2] =
      ([Step.eventsCall [1, 2],
        Step.checkinExec { events := [1, 2] } none (some "down")],
       Except.error "down") :=
  (execute_failure_no_ack
    { client := fun _ => Except.error "down",
      dispatchRes := fun _ => Except.ok () } [1, 2] "down" rfl).1

/-- C3: in a successful worker cycle, `Dispatch` is invoked exactly once,
and its batch is precisely the response's action list in response order
(the copy loop is an order-preserving identity), including the empty batch
when the response carries no actions. -/
theorem dispatch_once_in_order :
    ∀ (c : CycleEnv) (pending : List Event) (resp : CheckinResponse),
      c.client { events := pending } = Except.ok resp →
      (workerCycle c pending).countP Step.isDispatch = 1 ∧
      Step.dispatchCall resp.actions ∈ workerCycle c pending := by
  intro c pending resp h
  cases hd : c.dispatchRes resp.actions <;>
    simp [workerCycle, execute, h, hd, List.countP_cons, Step.isDispatch]

/-- Witness for C3 with a two-action response. -/
theorem dispatch_once_in_order_witness :
    (workerCycle
        { client := fun _ => Except.ok { actions := [7, 3] },
          dispatchRes := fun _ => Except.ok () } []).countP Step.isDispatch = 1 ∧
    Step.dispatchCall [7, 3] ∈
      workerCycle
        { client := fun _ => Except.ok { actions := [7, 3] },
          dispatchRes := fun _ => Except.ok () } [] :=
  dispatch_once_in_order
    { client := fun _ => Except.ok { actions := [7, 3] },
      dispatchRes := fun _ => Except.ok () } [] { actions := [7, 3] } rfl

/-- C9: both constructors return a non-nil gateway and a nil error for
every combination of arguments: construction never fails. -/
theorem constructors_never_fail :
    ∀ (settings : FleetGatewaySettings) (sched : PeriodicJitterSched),
      (newFleetGatewayWithScheduler settings sched).1.isSome = true ∧
      (newFleetGatewayWithScheduler settings sched).2 = none ∧
      (newFleetGateway settings).1.isSome = true ∧
      (newFleetGateway settings).2 = none := by
  intro s sc
  simp [newFleetGateway, newFleetGatewayWithScheduler]

/-- C4: in a cycle whose `Dispatch` returns an error, the error is merely
logged; the acknowledgment already committed in that cycle is not rolled
back (the Reporter's queue after the cycle is exactly the post-ack queue,
and the trace holds exactly one acknowledgment, no compensating queue
operation), and the worker loop continues with the remaining signals
instead of terminating. -/
theorem dispatch_error_logged_loop_continues :
    ∀ (w : World) (rest : List Signal) (k : Nat) (pending : List Event)
      (resp : CheckinResponse) (e : Err),
      (w.cycles k).client { events := pending } = Except.ok resp →
      (w.cycles k).dispatchRes resp.actions = Except.error e →
      worker w (Signal.tick :: rest) k pending =
        workerCycle (w.cycles k) pending ++
          worker w rest (k + 1) (ackRemove pending pending) ∧
      Step.logError e ∈ workerCycle (w.cycles k) pending ∧
      applyTrace pending (workerCycle (w.cycles k) pending) =
        ackRemove pending pending ∧
      (workerCycle (w.cycles k) pending).countP Step.isAck = 1 := by
  intro w rest k pending resp e hc hd
  have happly : applyTrace pending (workerCycle (w.cycles k) pending) =
      ackRemove pending pending := by
    simp [workerCycle, execute, hc, hd, applyTrace, applyStep]
  refine ⟨?_, ?_, happly, ?_⟩
  · rw [worker, happly]
  · simp [workerCycle, execute, hc, hd]
  · simp [workerCycle, execute, hc, hd, List.countP_cons, Step.isAck]

/-- Witness for C4 at a one-tick run with a failing dispatcher. -/
theorem dispatch_error_logged_loop_continues_witness :
    Step.logError "dfail" ∈
      workerCycle
        (({ cycles := fun _ =>
            { client := fun _ => Except.ok { actions := [4] },
              dispatchRes := fun _ => Except.error "dfail" } } : World).cycles 0)
        [9] :=
  (dispatch_error_logged_loop_continues
    { cycles := fun _ =>
        { client := fun _ => Except.ok { actions := [4] },
          dispatchRes := fun _ => Except.error "dfail" } }
    [] 0 [9] { actions := [4] } "dfail" rfl rfl).2.1

/-- C5: a `done` signal observed at a select boundary of the worker loop
ends the run there: the loop's trace over any signal sequence equals the
trace over the part before the first `done`, so no further cycle starts
once the stop signal is observed; and `Stop` on a gateway whose done
channel is still open succeeds, leaving the scheduler stopped so that its
wait delivers no further tick. -/
theorem done_stops_loop :
    (∀ (w : World) (pre post : List Signal) (k : Nat) (p : List Event),
       worker w (pre ++ Signal.done :: post) k p = worker w pre k p) ∧
    (∀ g : Gateway, g.done.closed = false →
       ∃ g2, Gateway.stopGateway g = Except.ok g2 ∧
         g2.sched.stopped = true ∧ waitTick g2.sched = none) := by
  constructor
  · intro w pre post
    induction pre with
    | nil => intro k p; rfl
    | cons s rest ih =>
        intro k p
        cases s with
        | done => rfl
        | tick => simp [worker, ih]
  · intro g h
    refine ⟨{ done := { closed := true }, sched := schedStop g.sched }, ?_, rfl, rfl⟩
    simp [Gateway.stopGateway, closeChan, h]

/-- Witness for C5: stopping a freshly built gateway. -/
theorem done_stops_loop_witness :
    ∃ g2, Gateway.stopGateway
        { sched := newPeriodicJitter 100 10, done := { closed := false } } =
          Except.ok g2 ∧
      g2.sched.stopped = true ∧ waitTick g2.sched = none :=
  done_stops_loop.2
    { sched := newPeriodicJitter 100 10, done := { closed := false } } rfl

/-- C6: for a gateway built by `newFleetGateway` from settings with base
interval `I` and jitter magnitude `J`, every inter-tick delay of its
scheduler lies in `[I - J, I + J]` whenever the random offsets respect the
jitter magnitude, and any two ticks whose random offsets differ have
different delays, so a run whose draws are not all equal does not produce
all-identical delays. -/
theorem jitter_bound_and_varied :
    ∀ (settings : FleetGatewaySettings) (g : Gateway),
      (newFleetGateway settings).1 = some g →
      ∀ offsets : Nat → Int,
        (∀ k, -settings.jitter ≤ offsets k ∧ offsets k ≤ settings.jitter) →
        (∀ k, settings.duration - settings.jitter ≤ schedDelay g.sched offsets k ∧
              schedDelay g.sched offsets k ≤ settings.duration + settings.jitter) ∧
        (∀ j l : Nat, offsets j ≠ offsets l →
           schedDelay g.sched offsets j ≠ schedDelay g.sched offsets l) := by
  intro s g hg offsets hb
  have hgw : g = { sched := newPeriodicJitter s.duration s.jitter,
                   done := { closed := false } } := by
    have := hg
    simp [newFleetGateway, newFleetGatewayWithScheduler] at this
    exact this.symm
  subst hgw
  constructor
  · intro k
    have := hb k
    constructor <;> simp [schedDelay, newPeriodicJitter] <;> omega
  · intro j l hne
    simp [schedDelay, newPeriodicJitter]
    omega

/-- Witness for C6 with interval 100, jitter 10 and a varying offset
stream. -/
theorem jitter_bound_and_varied_witness :
    (∀ k, (100 : Int) - 10 ≤
        schedDelay { interval := 100, jitter := 10, stopped := false }
          (fun k => ((k % 2 : Nat) : Int)) k ∧
        schedDelay { interval := 100, jitter := 10, stopped := false }
          (fun k => ((k % 2 : Nat) : Int)) k ≤ 100 + 10) ∧
    (∀ j l : Nat,
       (fun k => ((k % 2 : Nat) : Int)) j ≠ (fun k => ((k % 2 : Nat) : Int)) l →
       schedDelay { interval := 100, jitter := 10, stopped := false }
           (fun k => ((k % 2 : Nat) : Int)) j ≠
         schedDelay { interval := 100, jitter := 10, stopped := false }
           (fun k => ((k % 2 : Nat) : Int)) l) :=
  jitter_bound_and_varied { duration := 100, jitter := 10 }
    { sched := { interval := 100, jitter := 10, stopped := false },
      done := { closed := false } }
    rfl (fun k => ((k % 2 : Nat) : Int))
    (by
      intro k
      have h2 : k % 2 < 2 := Nat.mod_lt _ (by omega)
      constructor <;> simp <;> omega)

/-- C7: `Start` spawns the worker as a separate unit of execution and
performs no interaction steps itself before returning; and the worker's
trace is exactly the concatenation of complete per-cycle traces, so at
most one check-in cycle is in flight at a time and a new `execute` never
begins before the previous cycle (round-trip plus dispatch) has completed. -/
theorem start_async_cycles_sequential :
    (∀ g : Gateway, (Gateway.startGateway g).syncTrace = [] ∧
       (Gateway.startGateway g).spawnedWorker = true) ∧
    (∀ (w : World) (sigs : List Signal) (k : Nat) (p : List Event),
       worker w sigs k p = (cycleList w sigs k p).flatten) := by
  constructor
  · intro g; exact ⟨rfl, rfl⟩
  · intro w sigs
    induction sigs with
    | nil => intro k p; rfl
    | cons s rest ih =>
        intro k p
        cases s with
        | done => rfl
        | tick => simp [worker, cycleList, ih]

/-- C8: under the precondition that `Stop` is invoked on a gateway whose
done channel has not been closed (a single caller), it completes without
fault: the close of the done channel cannot hit the already-closed fault
branch, and `Stop` returns a gateway rather than an error. -/
theorem stop_safe_single_call :
    ∀ g : Gateway, g.done.closed = false →
      (∀ e : Err, closeChan g.done ≠ Except.error e) ∧
      ∃ g2, Gateway.stopGateway g = Except.ok g2 := by
  intro g h
  constructor
  · intro e
    simp [closeChan, h]
  · exact ⟨{ done := { closed := true }, sched := schedStop g.sched },
      by simp [Gateway.stopGateway, closeChan, h]⟩

/-- Witness for C8 on a freshly constructed gateway. -/
theorem stop_safe_single_call_witness :
    ∃ g2, Gateway.stopGateway
        { sched := newPeriodicJitter 1 0, done := { closed := false } } =
      Except.ok g2 :=
  (stop_safe_single_call
    { sched := newPeriodicJitter 1 0, done := { closed := false } } rfl).2

/-- C10: the gateway never mutates the Reporter's queue directly: neither
`execute` nor a worker cycle nor `Start` ever emits a direct queue write,
and the queue's evolution under a cycle's trace is exactly the one induced
by the acknowledgment capability (removal of the snapshot on success,
unchanged on failure). -/
theorem gateway_never_writes_queue :
    ∀ (c : CycleEnv) (pending : List Event),
      ((execute c.client pending).1.all fun s => !Step.isQueueWrite s) = true ∧
      ((workerCycle c pending).all fun s => !Step.isQueueWrite s) = true ∧
      (∀ g : Gateway,
        ((Gateway.startGateway g).syncTrace.all fun s => !Step.isQueueWrite s) = true) ∧
      applyTrace pending (workerCycle c pending) =
        (match c.client { events := pending } with
         | Except.ok _ => ackRemove pending pending
         | Except.error _ => pending) := by
  intro c pending
  refine ⟨?_, ?_, fun g => rfl, ?_⟩
  · cases h : c.client { events := pending } <;>
      simp [execute, h, Step.isQueueWrite]
  · cases h : c.client { events := pending } with
    | error e => simp [workerCycle, execute, h, Step.isQueueWrite]
    | ok resp =>
        cases hd : c.dispatchRes resp.actions <;>
          simp [workerCycle, execute, h, hd, Step.isQueueWrite]
  · cases h : c.client { events := pending } with
    | error e => simp [workerCycle, execute, h, applyTrace, applyStep]
    | ok resp =>
        cases hd : c.dispatchRes resp.actions <;>
          simp [workerCycle, execute, h, hd, applyTrace, applyStep]

end FleetGatewayModel
